import Mathlib

/-!
Shallow embedding of the fittingzz-server account and client code paths:
`src/modules/user/user.repository.ts`, `src/modules/user/user.service.ts`,
`src/modules/user/user.controller.ts`, `src/modules/client/client.repository.ts`,
`src/utils/jwt.ts`, `src/utils/response.ts` and the zod validation schemas in
`user.validation.ts`.

Conventions of the embedding:
- timestamps are natural numbers (milliseconds since the epoch); each call to
  `new Date()` / `Date.now()` inside an operation is the explicit `now` argument
  of that operation;
- the relational store is a list of rows; a drizzle
  `select().where(eq(col, v)).limit(1)` is `List.find?`; an
  `update().set(...).where(eq(col, v))` maps the setter over the matching rows;
  `.returning()` followed by `result[0] || null` is a `find?` over the updated
  list;
- `Math.random()` is an explicit rational argument `q` with `0 ≤ q < 1`;
- `bcrypt.hash` is an explicit function argument `hash`;
- a JWT is a record carrying its claims (`userId`, `email` and the optional
  `purpose` claim of reset tokens), the secret it was signed with and its
  absolute expiry (`iat` plus the `expiresIn` lifetime); verification succeeds
  iff the verifier's secret matches the signing secret and the token has not
  yet expired (`jsonwebtoken` rejects once the clock reaches `exp`);
- e-mail delivery (the queue dispatch) is modelled as succeeding, so the
  `catch`-and-rethrow branches around it are never taken.
-/

/-- A row of the `users` table (`user.schema.ts`). -/
structure User where
  id : String
  businessName : String
  email : String
  password : Option String
  contactNumber : Option String
  address : Option String
  role : String
  emailVerificationCode : Option String
  emailVerificationExpiresAt : Option Nat
  passwordResetCode : Option String
  passwordResetExpiresAt : Option Nat
  isEmailVerified : Bool
  isActive : Bool
  lastLoginAt : Option Nat
  updatedAt : Nat
deriving Repr, DecidableEq

/-- `UserRepository.findByEmail`: `select().where(eq(users.email, email)).limit(1)`. -/
def findByEmail (db : List User) (email : String) : Option User :=
  db.find? fun u => u.email == email

/-- `UserRepository.findById` (also the `.returning()[0]` lookup after an update). -/
def findUserById (db : List User) (id : String) : Option User :=
  db.find? fun u => u.id == id

/-- The `update(users).set(...).where(eq(users.id, id))` pattern of
`UserRepository.update`: apply the setter `f` to every row whose `id` matches. -/
def dbUpdate (db : List User) (id : String) (f : User → User) : List User :=
  db.map fun u => if u.id = id then f u else u

/-- `UserRepository.setEmailVerificationCode`: goes through the generic
`update`, which also refreshes `updatedAt`. -/
def setEmailVerificationCode (db : List User) (id code : String)
    (expiresAt now : Nat) : List User :=
  dbUpdate db id fun u =>
    { u with emailVerificationCode := some code,
             emailVerificationExpiresAt := some expiresAt,
             updatedAt := now }

/-- `UserRepository.verifyEmailWithCode`: returns the matched row (the
pre-update row, as in the source) together with the new table state. -/
def verifyEmailWithCode (db : List User) (email code : String) (now : Nat) :
    Option User × List User :=
  match findByEmail db email with
  | none => (none, db)
  | some user =>
    match user.emailVerificationCode, user.emailVerificationExpiresAt with
    | some storedCode, some expiresAt =>
      if storedCode ≠ code then (none, db)
      else if now > expiresAt then (none, db)
      else
        (some user,
         dbUpdate db user.id fun u =>
           { u with isEmailVerified := true,
                    emailVerificationCode := none,
                    emailVerificationExpiresAt := none,
                    updatedAt := now })
    | _, _ => (none, db)

/-- `UserRepository.setPasswordResetCode`: a raw `update ... where eq(email)`
that sets only the two reset columns (it does not refresh `updatedAt`). -/
def setPasswordResetCode (db : List User) (email code : String)
    (expiresAt : Nat) : List User :=
  db.map fun u =>
    if u.email = email then
      { u with passwordResetCode := some code,
               passwordResetExpiresAt := some expiresAt }
    else u

/-- `UserRepository.verifyPasswordResetCode`: read-only; performs no update. -/
def verifyPasswordResetCode (db : List User) (email code : String) (now : Nat) :
    Option User :=
  match findByEmail db email with
  | none => none
  | some user =>
    match user.passwordResetCode, user.passwordResetExpiresAt with
    | some storedCode, some expiresAt =>
      if storedCode ≠ code then none
      else if now > expiresAt then none
      else some user
    | _, _ => none

/-- A signed token (`utils/jwt.ts` over `jsonwebtoken`): its claims, the secret
it was signed with, and its absolute expiry. -/
structure Jwt where
  userId : String
  email : String
  purpose : Option String
  secret : String
  expiresAt : Nat
deriving Repr, DecidableEq

/-- `jwtToken.sign` with an explicit lifetime (`expiresIn`). -/
def jwtSign (userId email : String) (purpose : Option String) (secret : String)
    (now lifetime : Nat) : Jwt :=
  { userId := userId, email := email, purpose := purpose, secret := secret,
    expiresAt := now + lifetime }

/-- `jwtToken.verify`: yields the decoded claims iff the signature checks out
(same secret) and the token is not yet expired. -/
def jwtVerify (token : Jwt) (secret : String) (now : Nat) : Option Jwt :=
  if token.secret = secret ∧ now < token.expiresAt then some token else none

/-- The code generator `Math.floor(100000 + Math.random() * 900000)` used by
`register`, `resendVerificationEmail` and `requestPasswordReset`, with
`Math.random()` as an explicit rational `q` (callers assume `0 ≤ q < 1`). -/
def genCode (q : ℚ) : ℕ :=
  (((100000 : ℚ) + q * 900000).floor).toNat

/-- The `.toString()` rendering of the generated code (no padding is applied in
the source). -/
def genCodeStr (q : ℚ) : String :=
  Nat.repr (genCode q)

/-- The `{ success, message }` objects returned by the verification and reset
methods of `UserService`. -/
structure ServiceResult where
  success : Bool
  message : String
deriving Repr, DecidableEq

/-- `UserService.verifyEmail`. -/
def verifyEmail (db : List User) (email code : String) (now : Nat) :
    ServiceResult × List User :=
  match verifyEmailWithCode db email code now with
  | (none, db') => (⟨false, "Invalid or expired verification code"⟩, db')
  | (some _, db') => (⟨true, "Email verified successfully"⟩, db')

/-- `UserService.resendVerificationEmail` (e-mail dispatch modelled as
succeeding). -/
def resendVerificationEmail (db : List User) (email : String) (now : Nat)
    (q : ℚ) : ServiceResult × List User :=
  match findByEmail db email with
  | none => (⟨true, "If the email exists, a verification code has been sent"⟩, db)
  | some user =>
    if user.isEmailVerified then (⟨false, "Email is already verified"⟩, db)
    else
      (⟨true, "Verification email sent successfully"⟩,
       setEmailVerificationCode db user.id (genCodeStr q) (now + 10 * 60 * 1000) now)

/-- `UserService.requestPasswordReset` (e-mail dispatch modelled as
succeeding). -/
def requestPasswordReset (db : List User) (email : String) (now : Nat)
    (q : ℚ) : ServiceResult × List User :=
  match findByEmail db email with
  | none => (⟨true, "If the email exists, a reset code has been sent"⟩, db)
  | some _ =>
    (⟨true, "Password reset code sent to your email"⟩,
     setPasswordResetCode db email (genCodeStr q) (now + 15 * 60 * 1000))

/-- The outcome of `UserService.verifyResetCode`; the table is carried through
explicitly (the method performs no write: `verifyPasswordResetCode` only
selects). -/
structure VerifyResetOutcome where
  result : ServiceResult
  resetToken : Option Jwt
  db : List User
deriving Repr

/-- `UserService.verifyResetCode`: on success mints a 5-minute token with
`purpose = "password_reset"` and leaves the stored code untouched. -/
def verifyResetCode (db : List User) (email code : String) (now : Nat)
    (secret : String) : VerifyResetOutcome :=
  match verifyPasswordResetCode db email code now with
  | none => ⟨⟨false, "Invalid or expired reset code"⟩, none, db⟩
  | some user =>
    ⟨⟨true, "Code verified. You can now set your new password."⟩,
     some (jwtSign user.id user.email (some "password_reset") secret now (5 * 60 * 1000)),
     db⟩

/-- The row update performed by `resetPasswordWithToken` through
`userRepo.update`: new password hash, both reset columns cleared, `updatedAt`
refreshed. -/
def resetSetter (newPassword : String) (hash : String → String) (now : Nat) :
    User → User :=
  fun u =>
    { u with password := some (hash newPassword),
             passwordResetCode := none,
             passwordResetExpiresAt := none,
             updatedAt := now }

/-- `UserService.resetPasswordWithToken` (the intermediate `db'` of the source
is written out at each use site). -/
def resetPasswordWithToken (db : List User) (token : Jwt) (newPassword : String)
    (now : Nat) (secret : String) (hash : String → String) :
    ServiceResult × List User :=
  match jwtVerify token secret now with
  | none => (⟨false, "Invalid or expired reset token"⟩, db)
  | some decoded =>
    if decoded.purpose ≠ some "password_reset" then
      (⟨false, "Invalid reset token"⟩, db)
    else
      match findUserById (dbUpdate db decoded.userId
          (resetSetter newPassword hash now)) decoded.userId with
      | none =>
        (⟨false, "Failed to reset password"⟩,
         dbUpdate db decoded.userId (resetSetter newPassword hash now))
      | some _ =>
        (⟨true, "Password reset successfully"⟩,
         dbUpdate db decoded.userId (resetSetter newPassword hash now))

/-- The shape of the objects in `SignupDto` (`user.dto.ts`). -/
structure SignupDto where
  businessName : String
  email : String
  password : String
  contactNumber : String
  address : String
deriving Repr, DecidableEq

/-- The row inserted by `UserRepository.create` for a signup: schema defaults
(`role business`, unverified, active, no codes) plus the request fields. -/
def newUser (r : SignupDto) (freshId hashed : String) (now : Nat) : User :=
  { id := freshId, businessName := r.businessName, email := r.email,
    password := some hashed, contactNumber := some r.contactNumber,
    address := some r.address, role := "business",
    emailVerificationCode := none, emailVerificationExpiresAt := none,
    passwordResetCode := none, passwordResetExpiresAt := none,
    isEmailVerified := false, isActive := true, lastLoginAt := none,
    updatedAt := now }

/-- `UserService.register`. `freshId` is the `uuid defaultRandom` primary key
of the inserted row, `hashed` the bcrypt hash of the password, `q` the
randomness for the verification code. `Except.error` is the thrown
`ConflictError`; the table is returned in both cases (the throw happens before
any write). -/
def register (db : List User) (r : SignupDto) (freshId hashed : String)
    (now : Nat) (q : ℚ) : Except String User × List User :=
  match findByEmail db r.email with
  | some _ => (.error "Email already registered", db)
  | none =>
    (.ok (newUser r freshId hashed now),
     setEmailVerificationCode (db ++ [newUser r freshId hashed now]) freshId
       (genCodeStr q) (now + 10 * 60 * 1000) now)

/-- The JS `String.prototype.toLowerCase`, modelled character-wise. -/
def lowerStr (s : String) : String :=
  ⟨s.data.map Char.toLower⟩

/-- The JS `String.prototype.trim`: strip leading and trailing whitespace. -/
def trimStr (s : String) : String :=
  ⟨((s.data.dropWhile Char.isWhitespace).reverse.dropWhile
      Char.isWhitespace).reverse⟩

/-- The zod normalization applied to `signupSchema.email` in
`user.validation.ts`: `.toLowerCase().trim()`. -/
def normalizeEmail (s : String) : String :=
  trimStr (lowerStr s)

/-- `POST /auth/register`: body validation (with its e-mail normalization)
followed by `UserService.register`. -/
def registerPipeline (db : List User) (r : SignupDto) (freshId hashed : String)
    (now : Nat) (q : ℚ) : Except String User × List User :=
  register db { r with email := normalizeEmail r.email } freshId hashed now q

/-- The observable part of an HTTP reply built by `successResponse`
(`utils/response.ts`): the status code plus the JSON body's `success` and
`message` fields. -/
structure HttpResponse where
  status : Nat
  success : Bool
  message : String
deriving Repr, DecidableEq

/-- `UserController.requestPasswordReset`: unconditionally
`successResponse(res, null, result.message)`, i.e. status 200 with
`success: true` and the service's message. -/
def requestPasswordResetController (db : List User) (email : String)
    (now : Nat) (q : ℚ) : HttpResponse × List User :=
  let r := requestPasswordReset db email now q
  (⟨200, true, r.1.message⟩, r.2)

/-- `UserController.resendVerificationEmail`: `successResponse` with status 200
when the service reports success and status 400 otherwise (the body's `success`
field is `true` in both branches, both go through `successResponse`). -/
def resendVerificationController (db : List User) (email : String) (now : Nat)
    (q : ℚ) : HttpResponse × List User :=
  let r := resendVerificationEmail db email now q
  (if r.1.success then ⟨200, true, r.1.message⟩ else ⟨400, true, r.1.message⟩, r.2)

/-- A row of the `clients` table (`client.schema.ts`): `adminId` is the owning
account. -/
structure Client where
  id : String
  adminId : String
  name : String
  phone : String
  email : String
  gender : String
  updatedAt : Nat
deriving Repr, DecidableEq

/-- The updatable fields that can reach `ClientRepository.update` through
`updateClientSchema` (all optional; `id` and `adminId` are never part of the
payload). -/
structure ClientPatch where
  name : Option String
  phone : Option String
  email : Option String
  gender : Option String
deriving Repr, DecidableEq

/-- Applying an update payload to a row (the `set({ ...clientData })` spread). -/
def applyPatch (p : ClientPatch) (c : Client) : Client :=
  { c with name := p.name.getD c.name, phone := p.phone.getD c.phone,
           email := p.email.getD c.email, gender := p.gender.getD c.gender }

/-- `ClientRepository.findById`:
`where(and(eq(clients.id, id), eq(clients.adminId, adminId))).limit(1)`. -/
def clientFindById (db : List Client) (id adminId : String) : Option Client :=
  db.find? fun c => c.id == id && c.adminId == adminId

/-- `ClientRepository.update`: sets the payload plus `updatedAt` on the rows
matching both `id` and `adminId`; returns `result[0] || null` of
`.returning()`. -/
def clientUpdate (db : List Client) (id adminId : String) (p : ClientPatch)
    (now : Nat) : Option Client × List Client :=
  let db' := db.map fun c =>
    if c.id = id ∧ c.adminId = adminId then { applyPatch p c with updatedAt := now }
    else c
  (db'.find? fun c => c.id == id && c.adminId == adminId, db')

/-- `ClientRepository.delete`: removes the rows matching both filters and
returns the first removed row (`result[0] || null` of `.returning()`). -/
def clientDelete (db : List Client) (id adminId : String) :
    Option Client × List Client :=
  (db.find? fun c => c.id == id && c.adminId == adminId,
   db.filter fun c => !(c.id == id && c.adminId == adminId))

/-! Helper lemmas. -/

lemma ratFloor_coe (a : ℚ) : a.floor = ⌊a⌋ := by
  rw [Rat.floor_def', ← Rat.floor_def]

lemma genCode_zero : genCode 0 = 100000 := by
  rw [genCode, ratFloor_coe]
  have h : ((100000 : ℚ) + 0 * 900000) = ((100000 : ℤ) : ℚ) := by norm_num
  rw [h, Int.floor_intCast]
  rfl

lemma genCodeStr_zero : genCodeStr 0 = "100000" := by
  rw [genCodeStr, genCode_zero]
  rfl

lemma findUserById_dbUpdate (db : List User) (v : User) (f : User → User)
    (hf : ∀ u, (f u).id = u.id) (hv : v ∈ db) :
    ∃ w, w ∈ db ∧ w.id = v.id ∧
      findUserById (dbUpdate db v.id f) v.id = some (f w) := by
  induction db with
  | nil => cases hv
  | cons x xs ih =>
    by_cases hx : x.id = v.id
    · refine ⟨x, List.mem_cons_self x xs, hx, ?_⟩
      simp [findUserById, dbUpdate, hx, List.find?_cons, hf]
    · have hv' : v ∈ xs := by
        rcases List.mem_cons.mp hv with h | h
        · exact absurd (h ▸ rfl) hx
        · exact h
      obtain ⟨w, hw, hwid, hfind⟩ := ih hv'
      refine ⟨w, List.mem_cons_of_mem x hw, hwid, ?_⟩
      simpa [findUserById, dbUpdate, hx, List.find?_cons] using hfind

lemma dbUpdate_noop (db : List User) (id : String) (f : User → User)
    (h : ∀ u ∈ db, u.id ≠ id) : dbUpdate db id f = db := by
  rw [dbUpdate]
  conv_rhs => rw [← List.map_id db]
  exact List.map_congr_left fun u hu => by simp [h u hu]

/-- The success condition of `verifyEmail`, written as the spec states it. -/
def verifyEmailOk (db : List User) (email code : String) (now : Nat) : Prop :=
  ∃ u, findByEmail db email = some u ∧ ∃ c e,
    u.emailVerificationCode = some c ∧ u.emailVerificationExpiresAt = some e ∧
    c = code ∧ now ≤ e

/-- Exhaustive description of the two outcomes of `verifyEmail`. -/
lemma verifyEmail_cases (db : List User) (email code : String) (now : Nat) :
    (∃ u, findByEmail db email = some u ∧
      verifyEmailOk db email code now ∧
      verifyEmail db email code now =
        (⟨true, "Email verified successfully"⟩,
         dbUpdate db u.id fun v =>
           { v with isEmailVerified := true,
                    emailVerificationCode := none,
                    emailVerificationExpiresAt := none,
                    updatedAt := now })) ∨
    (¬ verifyEmailOk db email code now ∧
      verifyEmail db email code now =
        (⟨false, "Invalid or expired verification code"⟩, db)) := by
  cases hfind : findByEmail db email with
  | none =>
    right
    constructor
    · rintro ⟨u, hu, -⟩
      rw [hfind] at hu
      cases hu
    · simp [verifyEmail, verifyEmailWithCode, hfind]
  | some u =>
    cases hc : u.emailVerificationCode with
    | none =>
      right
      constructor
      · rintro ⟨u', hu', c', e', hc', -⟩
        rw [hfind] at hu'
        cases hu'
        rw [hc] at hc'
        cases hc'
      · simp [verifyEmail, verifyEmailWithCode, hfind, hc]
    | some c =>
      cases he : u.emailVerificationExpiresAt with
      | none =>
        right
        constructor
        · rintro ⟨u', hu', c', e', hc', he', -⟩
          rw [hfind] at hu'
          cases hu'
          rw [he] at he'
          cases he'
        · simp [verifyEmail, verifyEmailWithCode, hfind, hc, he]
      | some e =>
        by_cases hcc : c = code
        · subst hcc
          by_cases hex : now > e
          · right
            constructor
            · rintro ⟨u', hu', c', e', hc', he', -, hle⟩
              rw [hfind] at hu'
              cases hu'
              rw [he] at he'
              cases he'
              omega
            · simp only [verifyEmail, verifyEmailWithCode, hfind, hc, he]
              rw [if_neg (fun h => h rfl), if_pos hex]
          · left
            refine ⟨u, rfl, ⟨u, hfind, c, e, hc, he, rfl, by omega⟩, ?_⟩
            simp only [verifyEmail, verifyEmailWithCode, hfind, hc, he]
            rw [if_neg (fun h => h rfl), if_neg hex]
        · right
          constructor
          · rintro ⟨u', hu', c', e', hc', he', hcc', -⟩
            rw [hfind] at hu'
            cases hu'
            rw [hc] at hc'
            cases hc'
            exact hcc hcc'
          · simp only [verifyEmail, verifyEmailWithCode, hfind, hc, he]
            rw [if_pos hcc]

/-- C1: `verifyEmail` succeeds iff an account with the email exists, a code and
its expiry are on file, the submitted code equals the stored one exactly, and
`now ≤ expiry`; every failing case yields the same generic outcome with the
table unchanged; on success the account is marked verified and both the code
and the expiry are cleared. -/
theorem verifyEmail_characterization (db : List User) (email code : String) (now : Nat) :
    ((verifyEmail db email code now).1.success = true ↔
      verifyEmailOk db email code now) ∧
    ((verifyEmail db email code now).1.success = false →
      (verifyEmail db email code now).1 =
        ⟨false, "Invalid or expired verification code"⟩ ∧
      (verifyEmail db email code now).2 = db) ∧
    ((verifyEmail db email code now).1.success = true →
      ∃ u u', findByEmail db email = some u ∧
        findUserById (verifyEmail db email code now).2 u.id = some u' ∧
        u'.isEmailVerified = true ∧ u'.emailVerificationCode = none ∧
        u'.emailVerificationExpiresAt = none) := by
  rcases verifyEmail_cases db email code now with ⟨u, hfind, hok, heq⟩ | ⟨hnok, heq⟩
  · refine ⟨?_, ?_, ?_⟩
    · rw [heq]
      exact ⟨fun _ => hok, fun _ => rfl⟩
    · rw [heq]
      intro h
      cases h
    · intro _
      have hmem : u ∈ db := List.mem_of_find?_eq_some hfind
      obtain ⟨w, _, _, hfound⟩ :=
        findUserById_dbUpdate db u
          (fun v => { v with isEmailVerified := true,
                             emailVerificationCode := none,
                             emailVerificationExpiresAt := none,
                             updatedAt := now })
          (fun _ => rfl) hmem
      rw [heq]
      exact ⟨u, _, hfind, hfound, rfl, rfl, rfl⟩
  · refine ⟨?_, ?_, ?_⟩
    · rw [heq]
      exact ⟨(fun h => by cases h), fun h => absurd h hnok⟩
    · rw [heq]
      intro _
      exact ⟨rfl, rfl⟩
    · rw [heq]
      intro h
      cases h

/-- A concrete one-row table used to instantiate C1. -/
def uC1 : User :=
  { id := "i1", businessName := "B", email := "e@x.com",
    password := some "p", contactNumber := none, address := none,
    role := "business", emailVerificationCode := some "123456",
    emailVerificationExpiresAt := some 100, passwordResetCode := none,
    passwordResetExpiresAt := none, isEmailVerified := false,
    isActive := true, lastLoginAt := none, updatedAt := 0 }

/-- Concrete instantiation of C1: a matching, unexpired code verifies the
account and clears the stored fields. -/
theorem verifyEmail_characterization_witness :
    (verifyEmail [uC1] "e@x.com" "123456" 50).1.success = true ∧
    (∃ u u', findByEmail [uC1] "e@x.com" = some u ∧
      findUserById (verifyEmail [uC1] "e@x.com" "123456" 50).2 u.id = some u' ∧
      u'.isEmailVerified = true ∧ u'.emailVerificationCode = none ∧
      u'.emailVerificationExpiresAt = none) :=
  ⟨by decide,
   (verifyEmail_characterization [uC1] "e@x.com" "123456" 50).2.2 (by decide)⟩

lemma client_no_match (db : List Client) (i a : String) (p : ClientPatch)
    (now : Nat) (h : ∀ d ∈ db, ¬ (d.id = i ∧ d.adminId = a)) :
    clientFindById db i a = none ∧
    clientUpdate db i a p now = (none, db) ∧
    clientDelete db i a = (none, db) := by
  have hfind : (db.find? fun d => d.id == i && d.adminId == a) = none := by
    rw [List.find?_eq_none]
    intro d hd
    simp only [Bool.and_eq_true, beq_iff_eq]
    exact h d hd
  have hmap : (db.map fun d =>
      if d.id = i ∧ d.adminId = a then { applyPatch p d with updatedAt := now }
      else d) = db := by
    conv_rhs => rw [← List.map_id db]
    exact List.map_congr_left fun d hd => by simp [h d hd]
  refine ⟨hfind, ?_, ?_⟩
  · simp only [clientUpdate, hmap, hfind]
  · simp only [clientDelete, hfind]
    rw [Prod.mk.injEq]
    refine ⟨rfl, ?_⟩
    rw [List.filter_eq_self]
    intro d hd
    simp only [Bool.not_eq_eq_eq_not, Bool.not_true, Bool.and_eq_false_iff]
    simp only [Bool.not_eq_true, beq_eq_false_iff_ne, ne_eq]
    have := h d hd
    tauto

/-- C2: a caller `a` distinct from the owner `b` of a client row gets the same
"not found" outcome for that row's id as for a nonexistent id, and the table is
left unchanged, because every query filters on both the client id and the
caller's owner id. -/
theorem client_tenant_isolation (db : List Client) (a b : String) (c : Client)
    (p : ClientPatch) (now : Nat) (badId : String)
    (hids : (db.map Client.id).Nodup) (hab : a ≠ b) (hc : c ∈ db)
    (hb : c.adminId = b) :
    (clientFindById db c.id a = none ∧
     clientUpdate db c.id a p now = (none, db) ∧
     clientDelete db c.id a = (none, db)) ∧
    (badId ∉ db.map Client.id →
      clientFindById db badId a = none ∧
      clientUpdate db badId a p now = (none, db) ∧
      clientDelete db badId a = (none, db)) := by
  constructor
  · refine client_no_match db c.id a p now ?_
    rintro d hd ⟨hdi, hda⟩
    have hdc : d = c := List.inj_on_of_nodup_map hids hd hc hdi
    rw [hdc, hb] at hda
    exact hab hda.symm
  · intro hbad
    refine client_no_match db badId a p now ?_
    rintro d hd ⟨hdi, -⟩
    exact hbad (hdi ▸ List.mem_map_of_mem Client.id hd)

/-- A concrete one-row client table used to instantiate C2. -/
def cC2 : Client :=
  { id := "c1", adminId := "B", name := "N", phone := "1",
    email := "n@x", gender := "Other", updatedAt := 0 }

/-- Concrete instantiation of C2: owner "A" cannot see, update or delete the
row of owner "B", nor a nonexistent row, and the table stays intact. -/
theorem client_tenant_isolation_witness :
    (clientFindById [cC2] "c1" "A" = none ∧
     clientUpdate [cC2] "c1" "A" ⟨some "M", none, none, none⟩ 7 = (none, [cC2]) ∧
     clientDelete [cC2] "c1" "A" = (none, [cC2])) ∧
    ("zz" ∉ ([cC2] : List Client).map Client.id →
      clientFindById [cC2] "zz" "A" = none ∧
      clientUpdate [cC2] "zz" "A" ⟨some "M", none, none, none⟩ 7 = (none, [cC2]) ∧
      clientDelete [cC2] "zz" "A" = (none, [cC2])) := by
  have h := client_tenant_isolation [cC2] "A" "B" cC2 ⟨some "M", none, none, none⟩ 7 "zz"
    (by decide) (by decide) (List.mem_singleton.mpr rfl) rfl
  exact h

/-- A concrete account used for the password-reset claims. -/
def uC3 : User :=
  { id := "u3", businessName := "B", email := "a@x.com",
    password := some "p", contactNumber := none, address := none,
    role := "business", emailVerificationCode := none,
    emailVerificationExpiresAt := none, passwordResetCode := none,
    passwordResetExpiresAt := none, isEmailVerified := true,
    isActive := true, lastLoginAt := none, updatedAt := 0 }

/-- C3 counterexample: the two forgot-password responses are distinguishable —
the run for an existing email and the run for a non-existing email return
different message texts, so the responses are not identical. -/
theorem requestPasswordReset_responses_differ :
    (requestPasswordResetController [uC3] "a@x.com" 0 0).1 ≠
    (requestPasswordResetController [uC3] "b@x.com" 0 0).1 := by
  decide

/-- C3 (amended): both runs of forgot-password return status 200 with
`success: true` (so status and shape never reveal account existence), but the
body's message text differs between the existing-account and missing-account
cases, so the full response does distinguish them. -/
theorem requestPasswordReset_status_identical (db : List User) (email : String)
    (now : Nat) (q : ℚ) :
    ((requestPasswordResetController db email now q).1.status = 200 ∧
     (requestPasswordResetController db email now q).1.success = true) ∧
    (findByEmail db email = none →
      (requestPasswordResetController db email now q).1.message =
        "If the email exists, a reset code has been sent") ∧
    (∀ u, findByEmail db email = some u →
      (requestPasswordResetController db email now q).1.message =
        "Password reset code sent to your email") := by
  unfold requestPasswordResetController requestPasswordReset
  cases hf : findByEmail db email with
  | none => simp
  | some u => simp

/-- Concrete instantiation of the amended C3: the existing-account run
responds 200 with the sent-code message. -/
theorem requestPasswordReset_status_identical_witness :
    ((requestPasswordResetController [uC3] "a@x.com" 0 0).1.status = 200 ∧
     (requestPasswordResetController [uC3] "a@x.com" 0 0).1.success = true) ∧
    (requestPasswordResetController [uC3] "a@x.com" 0 0).1.message =
      "Password reset code sent to your email" :=
  ⟨(requestPasswordReset_status_identical [uC3] "a@x.com" 0 0).1,
   (requestPasswordReset_status_identical [uC3] "a@x.com" 0 0).2.2 uC3 (by decide)⟩

lemma findUserById_eq_none_iff (db : List User) (uid : String) :
    findUserById db uid = none ↔ ∀ u ∈ db, u.id ≠ uid := by
  simp [findUserById, List.find?_eq_none]

lemma findUserById_some (db : List User) (uid : String) (v : User)
    (h : findUserById db uid = some v) : v ∈ db ∧ v.id = uid :=
  ⟨List.mem_of_find?_eq_some h, by simpa using List.find?_some h⟩

lemma findUserById_dbUpdate_none_iff (db : List User) (uid : String)
    (f : User → User) (hf : ∀ u, (f u).id = u.id) :
    findUserById (dbUpdate db uid f) uid = none ↔ findUserById db uid = none := by
  rw [findUserById_eq_none_iff, findUserById_eq_none_iff]
  constructor
  · intro h u hu
    have := h (if u.id = uid then f u else u)
      (List.mem_map_of_mem (fun v => if v.id = uid then f v else v) hu)
    by_cases hc : u.id = uid
    · rw [if_pos hc, hf] at this
      exact this
    · exact hc
  · intro h v hv
    rw [dbUpdate, List.mem_map] at hv
    obtain ⟨u, hu, rfl⟩ := hv
    by_cases hc : u.id = uid
    · exact absurd hc (h u hu)
    · rw [if_neg hc]
      exact h u hu

/-- A signed reset token naming an account id that is not in the table. -/
def tokC4 : Jwt :=
  { userId := "nobody", email := "n@x", purpose := some "password_reset",
    secret := "s", expiresAt := 300000 }

/-- C4 counterexample: a token whose signature verifies, which is unexpired and
whose purpose claim is exactly "password_reset" is still rejected when no
account carries its `userId`, so rejection is not equivalent to the three
listed conditions. -/
theorem resetPassword_rejects_valid_token_for_missing_user :
    jwtVerify tokC4 "s" 0 = some tokC4 ∧
    tokC4.purpose = some "password_reset" ∧
    (resetPasswordWithToken [] tokC4 "NewPass1" 0 "s" (fun p => p)).1.success
      = false := by
  decide

/-- C4 (amended): `resetPasswordWithToken` rejects iff the token's signature
is invalid or it is expired, or its purpose claim differs from
"password_reset", or no account carries the token's `userId`; every rejection
leaves the table unchanged, and on success the account named by the token gets
the hashed new password and both reset fields cleared. -/
theorem resetPasswordWithToken_characterization (db : List User) (token : Jwt)
    (newPassword : String) (now : Nat) (secret : String)
    (hash : String → String) :
    ((resetPasswordWithToken db token newPassword now secret hash).1.success = false ↔
      jwtVerify token secret now = none ∨ token.purpose ≠ some "password_reset" ∨
      findUserById db token.userId = none) ∧
    ((resetPasswordWithToken db token newPassword now secret hash).1.success = false →
      (resetPasswordWithToken db token newPassword now secret hash).2 = db) ∧
    ((resetPasswordWithToken db token newPassword now secret hash).1.success = true →
      ∃ u', findUserById
          (resetPasswordWithToken db token newPassword now secret hash).2
          token.userId = some u' ∧
        u'.password = some (hash newPassword) ∧ u'.passwordResetCode = none ∧
        u'.passwordResetExpiresAt = none) := by
  cases hv : jwtVerify token secret now with
  | none =>
    have heq : resetPasswordWithToken db token newPassword now secret hash =
        (⟨false, "Invalid or expired reset token"⟩, db) := by
      simp only [resetPasswordWithToken, hv]
    rw [heq]
    exact ⟨⟨fun _ => Or.inl rfl, fun _ => rfl⟩, fun _ => rfl, fun h => by cases h⟩
  | some decoded =>
    have hdec : decoded = token := by
      unfold jwtVerify at hv
      split at hv
      · cases hv; rfl
      · cases hv
    rw [hdec] at hv
    by_cases hp : token.purpose = some "password_reset"
    · cases hfound : findUserById (dbUpdate db token.userId
          (resetSetter newPassword hash now)) token.userId with
      | none =>
        have hnone : findUserById db token.userId = none :=
          (findUserById_dbUpdate_none_iff db token.userId
            (resetSetter newPassword hash now) (fun _ => rfl)).mp hfound
        have hnoop : dbUpdate db token.userId (resetSetter newPassword hash now) = db :=
          dbUpdate_noop db token.userId _
            ((findUserById_eq_none_iff db token.userId).mp hnone)
        have heq : resetPasswordWithToken db token newPassword now secret hash =
            (⟨false, "Failed to reset password"⟩, db) := by
          simp only [resetPasswordWithToken, hv]
          rw [if_neg (fun h => h hp), hfound, hnoop]
        rw [heq]
        exact ⟨⟨fun _ => Or.inr (Or.inr hnone), fun _ => rfl⟩,
          fun _ => rfl, fun h => by cases h⟩
      | some u0 =>
        have hsome : findUserById db token.userId ≠ none := by
          intro hn
          rw [(findUserById_dbUpdate_none_iff db token.userId
            (resetSetter newPassword hash now) (fun _ => rfl)).mpr hn] at hfound
          cases hfound
        have heq : resetPasswordWithToken db token newPassword now secret hash =
            (⟨true, "Password reset successfully"⟩,
             dbUpdate db token.userId (resetSetter newPassword hash now)) := by
          simp only [resetPasswordWithToken, hv]
          rw [if_neg (fun h => h hp), hfound]
        rw [heq]
        refine ⟨⟨(fun h => by cases h), ?_⟩, (fun h => by cases h), fun _ => ?_⟩
        · rintro (h | h | h)
          · cases h
          · exact absurd hp h
          · exact absurd h hsome
        · cases hdb : findUserById db token.userId with
          | none => exact absurd hdb hsome
          | some v =>
            obtain ⟨hvmem, hvid⟩ := findUserById_some db token.userId v hdb
            obtain ⟨w, -, -, hfw⟩ :=
              findUserById_dbUpdate db v (resetSetter newPassword hash now)
                (fun _ => rfl) hvmem
            rw [hvid] at hfw
            exact ⟨_, hfw, rfl, rfl, rfl⟩
    · have heq : resetPasswordWithToken db token newPassword now secret hash =
          (⟨false, "Invalid reset token"⟩, db) := by
        simp only [resetPasswordWithToken, hv]
        rw [if_pos hp]
      rw [heq]
      exact ⟨⟨fun _ => Or.inr (Or.inl hp), fun _ => rfl⟩, fun _ => rfl,
        fun h => by cases h⟩

/-- A one-row table holding the account that `tokC4v` names. -/
def uC4 : User :=
  { id := "u4", businessName := "B", email := "c@x.com",
    password := some "old", contactNumber := none, address := none,
    role := "business", emailVerificationCode := none,
    emailVerificationExpiresAt := none, passwordResetCode := some "123456",
    passwordResetExpiresAt := some 900000, isEmailVerified := true,
    isActive := true, lastLoginAt := none, updatedAt := 0 }

/-- A valid reset token for `uC4`. -/
def tokC4v : Jwt :=
  { userId := "u4", email := "c@x.com", purpose := some "password_reset",
    secret := "s", expiresAt := 300000 }

/-- Concrete instantiation of the amended C4: a valid token for an existing
account resets the password and clears the reset fields. -/
theorem resetPasswordWithToken_characterization_witness :
    (resetPasswordWithToken [uC4] tokC4v "NewPass1" 0 "s"
        (fun p => String.append "h:" p)).1.success = true ∧
    ∃ u', findUserById
        (resetPasswordWithToken [uC4] tokC4v "NewPass1" 0 "s"
          (fun p => String.append "h:" p)).2 tokC4v.userId = some u' ∧
      u'.password = some (String.append "h:" "NewPass1") ∧
      u'.passwordResetCode = none ∧ u'.passwordResetExpiresAt = none :=
  ⟨by decide,
   (resetPasswordWithToken_characterization [uC4] tokC4v "NewPass1" 0 "s"
      (fun p => String.append "h:" p)).2.2 (by decide)⟩

lemma genCode_bounds (q : ℚ) (h0 : 0 ≤ q) (h1 : q < 1) :
    100000 ≤ genCode q ∧ genCode q ≤ 999999 := by
  rw [genCode, ratFloor_coe]
  have hlb : (100000 : ℚ) ≤ 100000 + q * 900000 := by nlinarith
  have hub : (100000 : ℚ) + q * 900000 < 1000000 := by nlinarith
  have hfl : (100000 : ℤ) ≤ ⌊(100000 : ℚ) + q * 900000⌋ :=
    Int.le_floor.mpr (by exact_mod_cast hlb)
  have hfu : ⌊(100000 : ℚ) + q * 900000⌋ < 1000000 :=
    Int.floor_lt.mpr (by exact_mod_cast hub)
  constructor <;> omega

lemma genCode_surj (n : ℕ) (hl : 100000 ≤ n) (hu : n ≤ 999999) :
    ∃ q : ℚ, 0 ≤ q ∧ q < 1 ∧ genCode q = n := by
  have hnl : (100000 : ℚ) ≤ (n : ℚ) := by exact_mod_cast hl
  have hnu : (n : ℚ) ≤ 999999 := by exact_mod_cast hu
  refine ⟨((n : ℚ) - 100000) / 900000, ?_, ?_, ?_⟩
  · apply div_nonneg
    · linarith
    · norm_num
  · rw [div_lt_one (by norm_num)]
    linarith
  · rw [genCode, ratFloor_coe]
    have h : (100000 : ℚ) + ((n : ℚ) - 100000) / 900000 * 900000 = ((n : ℕ) : ℚ) := by
      field_simp
    rw [h, Int.floor_natCast]
    simp

/-- C5 counterexample: the value 0 (which would render as "000000") is never an
output of the code generator, so not every string in 000000–999999 is a
possible output. -/
theorem genCode_zero_impossible :
    ¬ ∃ q : ℚ, 0 ≤ q ∧ q < 1 ∧ genCode q = 0 := by
  rintro ⟨q, h0, h1, heq⟩
  have h := (genCode_bounds q h0 h1).1
  omega

/-- C5 (amended): for every random draw in `[0,1)` the generated code lies in
100000–999999, and every value in that range is a possible output; values
below 100000 — including 0 alias "000000" — are impossible, and the rendering
is a plain `toString` that needs no padding since every code has six digits. -/
theorem genCode_range_and_surjective :
    (∀ q : ℚ, 0 ≤ q → q < 1 → 100000 ≤ genCode q ∧ genCode q ≤ 999999) ∧
    (∀ n : ℕ, 100000 ≤ n → n ≤ 999999 →
      ∃ q : ℚ, 0 ≤ q ∧ q < 1 ∧ genCode q = n) :=
  ⟨fun q h0 h1 => genCode_bounds q h0 h1, fun n hl hu => genCode_surj n hl hu⟩

/-- Concrete instantiation of the amended C5 at `q = 0` and `n = 123456`. -/
theorem genCode_range_and_surjective_witness :
    ((0 : ℚ) ≤ 0 ∧ (0 : ℚ) < 1 ∧ 100000 ≤ genCode 0 ∧ genCode 0 ≤ 999999) ∧
    (100000 ≤ 123456 ∧ 123456 ≤ 999999 ∧
      ∃ q : ℚ, 0 ≤ q ∧ q < 1 ∧ genCode q = 123456) :=
  ⟨⟨le_refl 0, by decide, genCode_range_and_surjective.1 0 (le_refl 0) (by decide)⟩,
   ⟨by decide, by decide,
    genCode_range_and_surjective.2 123456 (by decide) (by decide)⟩⟩

lemma verifyResetCode_success_shape (db : List User) (email code : String)
    (now : Nat) (secret : String)
    (h : (verifyResetCode db email code now secret).result.success = true) :
    ∃ u e, findByEmail db email = some u ∧ u.passwordResetCode = some code ∧
      u.passwordResetExpiresAt = some e ∧ now ≤ e := by
  unfold verifyResetCode at h
  cases hv : verifyPasswordResetCode db email code now with
  | none =>
    simp only [hv] at h
    exact absurd h (by decide)
  | some u =>
    unfold verifyPasswordResetCode at hv
    cases hf : findByEmail db email with
    | none =>
      simp only [hf] at hv
      cases hv
    | some v =>
      simp only [hf] at hv
      cases hc : v.passwordResetCode with
      | none =>
        simp only [hc] at hv
        cases hv
      | some c =>
        cases he : v.passwordResetExpiresAt with
        | none =>
          simp only [hc, he] at hv
          cases hv
        | some e =>
          simp only [hc, he] at hv
          by_cases hcc : c = code
          · subst hcc
            rw [if_neg (fun hx => hx rfl)] at hv
            by_cases hex : now > e
            · rw [if_pos hex] at hv
              cases hv
            · rw [if_neg hex] at hv
              cases hv
              exact ⟨u, e, rfl, hc, he, by omega⟩
          · rw [if_pos hcc] at hv
            cases hv

/-- C6: a successful `verifyResetCode` writes nothing — the table, and with it
the stored reset code and expiry, are unchanged — so calling it again with the
same code at any time inside the stored window succeeds again and mints
another token that verifies with purpose "password_reset". -/
theorem verifyResetCode_frame_and_reusable (db : List User) (email code : String)
    (now now' : Nat) (secret : String) (u : User) (e : Nat)
    (hf : findByEmail db email = some u)
    (he : u.passwordResetExpiresAt = some e)
    (hsucc : (verifyResetCode db email code now secret).result.success = true)
    (hwin : now' ≤ e) :
    (verifyResetCode db email code now secret).db = db ∧
    (verifyResetCode db email code now' secret).result.success = true ∧
    ∃ t, (verifyResetCode db email code now' secret).resetToken = some t ∧
      t.purpose = some "password_reset" ∧ t.userId = u.id ∧
      jwtVerify t secret now' = some t := by
  have hdb : (verifyResetCode db email code now secret).db = db := by
    unfold verifyResetCode
    cases hv : verifyPasswordResetCode db email code now <;> rfl
  obtain ⟨u', e', hf', hc', he', -⟩ :=
    verifyResetCode_success_shape db email code now secret hsucc
  rw [hf] at hf'
  cases hf'
  rw [he] at he'
  cases he'
  have hver : verifyPasswordResetCode db email code now' = some u := by
    unfold verifyPasswordResetCode
    simp only [hf, hc', he]
    rw [if_neg (fun hx => hx rfl), if_neg (by omega : ¬ now' > e)]
  have heq : verifyResetCode db email code now' secret =
      ⟨⟨true, "Code verified. You can now set your new password."⟩,
       some (jwtSign u.id u.email (some "password_reset") secret now'
         (5 * 60 * 1000)), db⟩ := by
    unfold verifyResetCode
    rw [hver]
  refine ⟨hdb, ?_, ?_⟩
  · rw [heq]
  · rw [heq]
    refine ⟨jwtSign u.id u.email (some "password_reset") secret now' (5 * 60 * 1000),
      rfl, rfl, rfl, ?_⟩
    have hlt : now' < now' + 5 * 60 * 1000 := by omega
    simp [jwtVerify, jwtSign, hlt]

/-- A concrete account with a reset code on file, used to instantiate C6. -/
def uC6 : User :=
  { id := "u6", businessName := "B", email := "r@x.com",
    password := some "p", contactNumber := none, address := none,
    role := "business", emailVerificationCode := none,
    emailVerificationExpiresAt := none, passwordResetCode := some "654321",
    passwordResetExpiresAt := some 900000, isEmailVerified := true,
    isActive := true, lastLoginAt := none, updatedAt := 0 }

/-- Concrete instantiation of C6: after a successful code verification at time
0, a second verification of the same code at time 100 succeeds again. -/
theorem verifyResetCode_frame_and_reusable_witness :
    (verifyResetCode [uC6] "r@x.com" "654321" 0 "s").db = [uC6] ∧
    (verifyResetCode [uC6] "r@x.com" "654321" 100 "s").result.success = true ∧
    ∃ t, (verifyResetCode [uC6] "r@x.com" "654321" 100 "s").resetToken = some t ∧
      t.purpose = some "password_reset" ∧ t.userId = uC6.id ∧
      jwtVerify t "s" 100 = some t :=
  verifyResetCode_frame_and_reusable [uC6] "r@x.com" "654321" 0 100 "s" uC6
    900000 (by decide) (by decide) (by decide) (by decide)

/-- A concrete already-verified account, used against C7. -/
def uC7 : User :=
  { id := "u7", businessName := "B", email := "v@x.com",
    password := some "p", contactNumber := none, address := none,
    role := "business", emailVerificationCode := none,
    emailVerificationExpiresAt := none, passwordResetCode := none,
    passwordResetExpiresAt := none, isEmailVerified := true,
    isActive := true, lastLoginAt := none, updatedAt := 0 }

/-- C7 counterexample: for an existing, already-verified account the
resend-verification endpoint responds 400, not 200. -/
theorem resendVerification_400_when_verified :
    findByEmail [uC7] "v@x.com" = some uC7 ∧ uC7.isEmailVerified = true ∧
    (resendVerificationController [uC7] "v@x.com" 0 0).1.status = 400 := by
  decide

/-- C7 (amended): resend-verification responds 200 both when no account with
the email exists and when the account exists and is unverified; but when the
account exists and is already verified it responds 400 with "Email is already
verified". -/
theorem resendVerification_status (db : List User) (email : String) (now : Nat)
    (q : ℚ) :
    (findByEmail db email = none →
      (resendVerificationController db email now q).1.status = 200) ∧
    (∀ u, findByEmail db email = some u →
      (u.isEmailVerified = false →
        (resendVerificationController db email now q).1.status = 200) ∧
      (u.isEmailVerified = true →
        (resendVerificationController db email now q).1.status = 400 ∧
        (resendVerificationController db email now q).1.message =
          "Email is already verified")) := by
  unfold resendVerificationController resendVerificationEmail
  cases hf : findByEmail db email with
  | none => simp
  | some u =>
    cases hver : u.isEmailVerified with
    | false => simp [hver]
    | true => simp [hver]

/-- Concrete instantiation of the amended C7: a missing account gets 200 and a
verified account gets 400. -/
theorem resendVerification_status_witness :
    (resendVerificationController [uC7] "absent@x.com" 0 0).1.status = 200 ∧
    ((resendVerificationController [uC7] "v@x.com" 0 0).1.status = 400 ∧
     (resendVerificationController [uC7] "v@x.com" 0 0).1.message =
       "Email is already verified") :=
  ⟨(resendVerification_status [uC7] "absent@x.com" 0 0).1 (by decide),
   ((resendVerification_status [uC7] "v@x.com" 0 0).2 uC7 (by decide)).2 (by decide)⟩

/-- C8: when the (validated, schema-normalized) registration email is
case-insensitively equal to the email of an account already in the table — all
stored emails being lowercase, as the registration pipeline itself guarantees,
and the submitted email containing no surrounding whitespace — `register`
throws Conflict and the table is unchanged. -/
theorem register_duplicate_conflict (db : List User) (r : SignupDto)
    (freshId hashed : String) (now : Nat) (q : ℚ) (u : User)
    (hinv : ∀ v ∈ db, lowerStr v.email = v.email)
    (hu : u ∈ db)
    (hcase : lowerStr r.email = lowerStr u.email)
    (htrim : trimStr (lowerStr r.email) = lowerStr r.email) :
    registerPipeline db r freshId hashed now q =
      (.error "Email already registered", db) := by
  have hne : normalizeEmail r.email = u.email := by
    rw [normalizeEmail, htrim, hcase, hinv u hu]
  have hproj : ({ r with email := normalizeEmail r.email } : SignupDto).email
      = u.email := hne
  unfold registerPipeline register
  rw [hproj]
  cases hfu : findByEmail db u.email with
  | none =>
    exfalso
    have := List.find?_eq_none.mp hfu u hu
    simp at this
  | some w => rfl

/-- An account stored with a lowercase email, used to instantiate C8. -/
def uC8 : User :=
  { id := "u8", businessName := "B", email := "dup@x.com",
    password := some "p", contactNumber := none, address := none,
    role := "business", emailVerificationCode := none,
    emailVerificationExpiresAt := none, passwordResetCode := none,
    passwordResetExpiresAt := none, isEmailVerified := true,
    isActive := true, lastLoginAt := none, updatedAt := 0 }

/-- A signup request whose email differs from `uC8.email` only by case. -/
def rC8 : SignupDto :=
  { businessName := "Biz", email := "Dup@X.com", password := "Passw0rd",
    contactNumber := "0123456789", address := "Ten Chars Addr" }

/-- Concrete instantiation of C8: re-registering `Dup@X.com` against the
stored `dup@x.com` yields Conflict and leaves the table unchanged. -/
theorem register_duplicate_conflict_witness :
    registerPipeline [uC8] rC8 "u9" "h" 0 0 =
      (.error "Email already registered", [uC8]) :=
  register_duplicate_conflict [uC8] rC8 "u9" "h" 0 0 uC8
    (by decide) (List.mem_singleton.mpr rfl) (by decide) (by decide)

/-- One service-level operation on the `users` table, as reachable through the
HTTP surface; the side condition on `opRegister` models the freshness of the
`uuid defaultRandom` primary key. -/
inductive Step : List User → List User → Prop where
  | opRegister (db : List User) (r : SignupDto) (freshId hashed : String)
      (now : Nat) (q : ℚ) (hfresh : freshId ∉ db.map User.id) :
      Step db (register db r freshId hashed now q).2
  | opResend (db : List User) (email : String) (now : Nat) (q : ℚ) :
      Step db (resendVerificationEmail db email now q).2
  | opVerifyEmail (db : List User) (email code : String) (now : Nat) :
      Step db (verifyEmail db email code now).2
  | opRequestReset (db : List User) (email : String) (now : Nat) (q : ℚ) :
      Step db (requestPasswordReset db email now q).2
  | opVerifyResetCode (db : List User) (email code : String) (now : Nat)
      (secret : String) :
      Step db (verifyResetCode db email code now secret).db
  | opConfirmReset (db : List User) (token : Jwt) (newPassword : String)
      (now : Nat) (secret : String) (hash : String → String) :
      Step db (resetPasswordWithToken db token newPassword now secret hash).2

lemma register_snd_cases (db : List User) (r : SignupDto)
    (freshId hashed : String) (now : Nat) (q : ℚ) :
    (register db r freshId hashed now q).2 = db ∨
    (findByEmail db r.email = none ∧
      (register db r freshId hashed now q).2 =
        setEmailVerificationCode (db ++ [newUser r freshId hashed now]) freshId
          (genCodeStr q) (now + 10 * 60 * 1000) now) := by
  cases hf : findByEmail db r.email with
  | none => exact Or.inr ⟨rfl, by simp only [register, hf]⟩
  | some w => exact Or.inl (by simp only [register, hf])

lemma resend_snd_cases (db : List User) (email : String) (now : Nat) (q : ℚ) :
    (resendVerificationEmail db email now q).2 = db ∨
    (∃ w, findByEmail db email = some w ∧ w.isEmailVerified = false ∧
      (resendVerificationEmail db email now q).2 =
        setEmailVerificationCode db w.id (genCodeStr q)
          (now + 10 * 60 * 1000) now) := by
  cases hf : findByEmail db email with
  | none => exact Or.inl (by simp only [resendVerificationEmail, hf])
  | some w =>
    cases hver : w.isEmailVerified with
    | true => exact Or.inl (by simp [resendVerificationEmail, hf, hver])
    | false => exact Or.inr ⟨w, rfl, hver, by simp [resendVerificationEmail, hf, hver]⟩

lemma requestReset_snd_cases (db : List User) (email : String) (now : Nat)
    (q : ℚ) :
    (requestPasswordReset db email now q).2 = db ∨
    (requestPasswordReset db email now q).2 =
      setPasswordResetCode db email (genCodeStr q) (now + 15 * 60 * 1000) := by
  cases hf : findByEmail db email with
  | none => exact Or.inl (by simp only [requestPasswordReset, hf])
  | some w => exact Or.inr (by simp only [requestPasswordReset, hf])

lemma verifyResetCode_db_eq (db : List User) (email code : String) (now : Nat)
    (secret : String) : (verifyResetCode db email code now secret).db = db := by
  unfold verifyResetCode
  cases hv : verifyPasswordResetCode db email code now <;> rfl

lemma confirmReset_snd_cases (db : List User) (token : Jwt) (pw : String)
    (now : Nat) (secret : String) (hash : String → String) :
    (resetPasswordWithToken db token pw now secret hash).2 = db ∨
    (resetPasswordWithToken db token pw now secret hash).2 =
      dbUpdate db token.userId (resetSetter pw hash now) := by
  cases hv : jwtVerify token secret now with
  | none => exact Or.inl (by simp only [resetPasswordWithToken, hv])
  | some decoded =>
    have hdec : decoded = token := by
      unfold jwtVerify at hv
      split at hv
      · cases hv; rfl
      · cases hv
    subst hdec
    by_cases hp : decoded.purpose = some "password_reset"
    · refine Or.inr ?_
      simp only [resetPasswordWithToken, hv]
      rw [if_neg (fun hx => hx hp)]
      cases hfound : findUserById (dbUpdate db decoded.userId
          (resetSetter pw hash now)) decoded.userId with
      | none => rfl
      | some w => rfl
    · refine Or.inl ?_
      simp only [resetPasswordWithToken, hv]
      rw [if_pos hp]

/-- The per-row pairing invariant of the spec: a code is stored iff its expiry
is stored, for both the verification pair and the reset pair. -/
def codePairedInv (u : User) : Prop :=
  (u.emailVerificationCode.isSome ↔ u.emailVerificationExpiresAt.isSome) ∧
  (u.passwordResetCode.isSome ↔ u.passwordResetExpiresAt.isSome)

lemma codePaired_dbUpdate (db : List User) (id : String) (f : User → User)
    (hf : ∀ u, codePairedInv u → codePairedInv (f u))
    (h : ∀ u ∈ db, codePairedInv u) :
    ∀ u ∈ dbUpdate db id f, codePairedInv u := by
  intro u hu
  rw [dbUpdate, List.mem_map] at hu
  obtain ⟨v, hv, rfl⟩ := hu
  by_cases hc : v.id = id
  · rw [if_pos hc]
    exact hf v (h v hv)
  · rw [if_neg hc]
    exact h v hv

lemma codePaired_setPasswordResetCode (db : List User) (email code : String)
    (e : Nat) (h : ∀ u ∈ db, codePairedInv u) :
    ∀ u ∈ setPasswordResetCode db email code e, codePairedInv u := by
  intro u hu
  rw [setPasswordResetCode, List.mem_map] at hu
  obtain ⟨v, hv, rfl⟩ := hu
  by_cases hc : v.email = email
  · rw [if_pos hc]
    exact ⟨(h v hv).1, by simp⟩
  · rw [if_neg hc]
    exact h v hv

lemma codePaired_step (db db' : List User) (hstep : Step db db')
    (h : ∀ u ∈ db, codePairedInv u) : ∀ u ∈ db', codePairedInv u := by
  cases hstep with
  | opRegister r freshId hashed now q hfresh =>
    rcases register_snd_cases db r freshId hashed now q with heq | ⟨-, heq⟩
    · rw [heq]; exact h
    · rw [heq]
      unfold setEmailVerificationCode
      refine codePaired_dbUpdate _ _ _ (fun v hv => ⟨by simp, hv.2⟩) ?_
      intro v hv
      rcases List.mem_append.mp hv with h1 | h2
      · exact h v h1
      · rw [List.mem_singleton] at h2
        subst h2
        exact ⟨Iff.rfl, Iff.rfl⟩
  | opResend email now q =>
    rcases resend_snd_cases db email now q with heq | ⟨w, -, -, heq⟩
    · rw [heq]; exact h
    · rw [heq]
      unfold setEmailVerificationCode
      exact codePaired_dbUpdate _ _ _ (fun v hv => ⟨by simp, hv.2⟩) h
  | opVerifyEmail email code now =>
    rcases verifyEmail_cases db email code now with ⟨v, -, -, heq⟩ | ⟨-, heq⟩
    · rw [congrArg Prod.snd heq]
      exact codePaired_dbUpdate _ _ _ (fun v hv => ⟨by simp, hv.2⟩) h
    · rw [congrArg Prod.snd heq]
      exact h
  | opRequestReset email now q =>
    rcases requestReset_snd_cases db email now q with heq | heq
    · rw [heq]; exact h
    · rw [heq]
      exact codePaired_setPasswordResetCode _ _ _ _ h
  | opVerifyResetCode email code now secret =>
    rw [verifyResetCode_db_eq]
    exact h
  | opConfirmReset token pw now secret hash =>
    rcases confirmReset_snd_cases db token pw now secret hash with heq | heq
    · rw [heq]; exact h
    · rw [heq]
      exact codePaired_dbUpdate _ _ _ (fun v hv => ⟨hv.1, by simp [resetSetter]⟩) h

/-- C9: in every table state reachable through the six service operations from
the empty store, the verification code is stored iff its expiry is stored, and
likewise for the reset code — no operation ever stores one without the other. -/
theorem codes_paired_with_expiry (db : List User)
    (hreach : Relation.ReflTransGen Step [] db) :
    ∀ u ∈ db,
      (u.emailVerificationCode.isSome ↔ u.emailVerificationExpiresAt.isSome) ∧
      (u.passwordResetCode.isSome ↔ u.passwordResetExpiresAt.isSome) := by
  induction hreach with
  | refl => intro u hu; cases hu
  | tail hsteps hstep ih => exact codePaired_step _ _ hstep ih

/-- A concrete signup request used to instantiate C9. -/
def rC9 : SignupDto :=
  { businessName := "Biz", email := "c9@x.com", password := "Passw0rd",
    contactNumber := "0123456789", address := "Ten Chars Addr" }

/-- The row produced by registering `rC9` at time 0 with randomness 0. -/
def uC9 : User :=
  { id := "u9", businessName := "Biz", email := "c9@x.com",
    password := some "h", contactNumber := some "0123456789",
    address := some "Ten Chars Addr", role := "business",
    emailVerificationCode := some "100000",
    emailVerificationExpiresAt := some 600000, passwordResetCode := none,
    passwordResetExpiresAt := none, isEmailVerified := false,
    isActive := true, lastLoginAt := none, updatedAt := 0 }

lemma registerC9_eq : (register [] rC9 "u9" "h" 0 0).2 = [uC9] := by
  have h1 : findByEmail [] rC9.email = none := rfl
  simp only [register, h1]
  rw [genCodeStr_zero]
  decide

/-- Concrete instantiation of C9 on the one-step reachable state produced by a
registration. -/
theorem codes_paired_with_expiry_witness :
    uC9 ∈ (register [] rC9 "u9" "h" 0 0).2 ∧
    ((uC9.emailVerificationCode.isSome ↔ uC9.emailVerificationExpiresAt.isSome) ∧
     (uC9.passwordResetCode.isSome ↔ uC9.passwordResetExpiresAt.isSome)) := by
  have hmem : uC9 ∈ (register [] rC9 "u9" "h" 0 0).2 := by
    rw [registerC9_eq]
    exact List.mem_singleton.mpr rfl
  have hreach : Relation.ReflTransGen Step [] ((register [] rC9 "u9" "h" 0 0).2) :=
    Relation.ReflTransGen.single (Step.opRegister [] rC9 "u9" "h" 0 0 (by simp))
  exact ⟨hmem, codes_paired_with_expiry _ hreach uC9 hmem⟩

lemma map_field_congr {α : Type} (db : List User) (g : User → User)
    (fld : User → α) (hg : ∀ u ∈ db, fld (g u) = fld u) :
    (db.map g).map fld = db.map fld := by
  rw [List.map_map]
  exact List.map_congr_left fun u hu => hg u hu

lemma map_field_dbUpdate {α : Type} (db : List User) (id : String)
    (f : User → User) (fld : User → α) (hf : ∀ u, fld (f u) = fld u) :
    (dbUpdate db id f).map fld = db.map fld := by
  unfold dbUpdate
  refine map_field_congr db _ fld fun u hu => ?_
  by_cases hc : u.id = id
  · rw [if_pos hc, hf]
  · rw [if_neg hc]

lemma nodup_append_singleton {α : Type} (l : List α) (a : α) (h : l.Nodup)
    (ha : a ∉ l) : (l ++ [a]).Nodup := by
  rw [List.nodup_append]
  refine ⟨h, List.nodup_singleton a, ?_⟩
  intro x hx hx2
  rw [List.mem_singleton] at hx2
  subst hx2
  exact ha hx

lemma find?_email_self (db : List User) (u : User)
    (hnd : (db.map User.email).Nodup) (hu : u ∈ db) :
    findByEmail db u.email = some u := by
  induction db with
  | nil => cases hu
  | cons x xs ih =>
    rw [List.map_cons, List.nodup_cons] at hnd
    by_cases hx : x.email = u.email
    · rw [findByEmail, List.find?_cons_of_pos _ (by simp [hx])]
      rcases List.mem_cons.mp hu with rfl | hmem
      · rfl
      · exact absurd (hx ▸ List.mem_map_of_mem User.email hmem) hnd.1
    · rw [findByEmail, List.find?_cons_of_neg _ (by simp [hx])]
      rcases List.mem_cons.mp hu with rfl | hmem
      · exact absurd rfl hx
      · exact ih hnd.2 hmem

/-- Well-formedness maintained by the service operations: ids unique (primary
key), emails unique (unique constraint), and a verified account carries no
verification code. -/
def usersWf (db : List User) : Prop :=
  (db.map User.id).Nodup ∧ (db.map User.email).Nodup ∧
  ∀ u ∈ db, u.isEmailVerified = true → u.emailVerificationCode = none

lemma usersWf_step (db db' : List User) (hstep : Step db db')
    (hwf : usersWf db) : usersWf db' := by
  obtain ⟨hids, hemails, hvinv⟩ := hwf
  cases hstep with
  | opRegister r freshId hashed now q hfresh =>
    rcases register_snd_cases db r freshId hashed now q with heq | ⟨hf, heq⟩
    · rw [heq]; exact ⟨hids, hemails, hvinv⟩
    · rw [heq]
      unfold setEmailVerificationCode
      have hremail : r.email ∉ db.map User.email := by
        intro hmem
        rw [List.mem_map] at hmem
        obtain ⟨v, hv, hveq⟩ := hmem
        have hne := List.find?_eq_none.mp hf v hv
        simp at hne
        exact hne hveq
      refine ⟨?_, ?_, ?_⟩
      · rw [map_field_dbUpdate]
        · rw [List.map_append]
          simp only [List.map_cons, List.map_nil]
          exact nodup_append_singleton _ _ hids hfresh
        · exact fun u => rfl
      · rw [map_field_dbUpdate]
        · rw [List.map_append]
          simp only [List.map_cons, List.map_nil]
          exact nodup_append_singleton _ _ hemails hremail
        · exact fun u => rfl
      · unfold dbUpdate
        intro u hu hflag
        rw [List.mem_map] at hu
        obtain ⟨v, hv, rfl⟩ := hu
        rcases List.mem_append.mp hv with h1 | h2
        · have hne : v.id ≠ freshId := by
            intro hid
            exact hfresh (hid ▸ List.mem_map_of_mem User.id h1)
          rw [if_neg hne] at hflag ⊢
          exact hvinv v h1 hflag
        · rw [List.mem_singleton] at h2
          subst h2
          rw [if_pos (show (newUser r freshId hashed now).id = freshId from rfl)]
            at hflag
          simp [newUser] at hflag
  | opResend email now q =>
    rcases resend_snd_cases db email now q with heq | ⟨w, hfw, hverw, heq⟩
    · rw [heq]; exact ⟨hids, hemails, hvinv⟩
    · rw [heq]
      unfold setEmailVerificationCode
      have hwmem : w ∈ db := List.mem_of_find?_eq_some hfw
      refine ⟨?_, ?_, ?_⟩
      · rw [map_field_dbUpdate]
        · exact hids
        · exact fun u => rfl
      · rw [map_field_dbUpdate]
        · exact hemails
        · exact fun u => rfl
      · unfold dbUpdate
        intro u hu hflag
        rw [List.mem_map] at hu
        obtain ⟨v, hv, rfl⟩ := hu
        by_cases hc : v.id = w.id
        · have hvw : v = w := List.inj_on_of_nodup_map hids hv hwmem hc
          subst hvw
          rw [if_pos hc] at hflag
          exfalso
          have hflag' : v.isEmailVerified = true := hflag
          rw [hverw] at hflag'
          cases hflag'
        · rw [if_neg hc] at hflag ⊢
          exact hvinv v hv hflag
  | opVerifyEmail email code now =>
    rcases verifyEmail_cases db email code now with ⟨v, hfv, -, heq⟩ | ⟨-, heq⟩
    · have h2 : (verifyEmail db email code now).2 = dbUpdate db v.id (fun v =>
          { v with isEmailVerified := true, emailVerificationCode := none,
                   emailVerificationExpiresAt := none, updatedAt := now }) := by
        rw [heq]
      rw [h2]
      refine ⟨?_, ?_, ?_⟩
      · rw [map_field_dbUpdate]
        · exact hids
        · exact fun u => rfl
      · rw [map_field_dbUpdate]
        · exact hemails
        · exact fun u => rfl
      · unfold dbUpdate
        intro u hu hflag
        rw [List.mem_map] at hu
        obtain ⟨w2, hw2, rfl⟩ := hu
        by_cases hc : w2.id = v.id
        · rw [if_pos hc]
        · rw [if_neg hc] at hflag ⊢
          exact hvinv w2 hw2 hflag
    · have h2 : (verifyEmail db email code now).2 = db := by
        rw [heq]
      rw [h2]
      exact ⟨hids, hemails, hvinv⟩
  | opRequestReset email now q =>
    rcases requestReset_snd_cases db email now q with heq | heq
    · rw [heq]; exact ⟨hids, hemails, hvinv⟩
    · rw [heq]
      unfold setPasswordResetCode
      refine ⟨?_, ?_, ?_⟩
      · rw [map_field_congr db _ User.id (fun u hu => by
          by_cases hc : u.email = email
          · rw [if_pos hc]
          · rw [if_neg hc])]
        exact hids
      · rw [map_field_congr db _ User.email (fun u hu => by
          by_cases hc : u.email = email
          · rw [if_pos hc]
          · rw [if_neg hc])]
        exact hemails
      · intro u hu hflag
        rw [List.mem_map] at hu
        obtain ⟨v, hv, rfl⟩ := hu
        by_cases hc : v.email = email
        · rw [if_pos hc] at hflag ⊢
          exact hvinv v hv hflag
        · rw [if_neg hc] at hflag ⊢
          exact hvinv v hv hflag
  | opVerifyResetCode email code now secret =>
    rw [verifyResetCode_db_eq]
    exact ⟨hids, hemails, hvinv⟩
  | opConfirmReset token pw now secret hash =>
    rcases confirmReset_snd_cases db token pw now secret hash with heq | heq
    · rw [heq]; exact ⟨hids, hemails, hvinv⟩
    · rw [heq]
      refine ⟨?_, ?_, ?_⟩
      · rw [map_field_dbUpdate]
        · exact hids
        · exact fun u => rfl
      · rw [map_field_dbUpdate]
        · exact hemails
        · exact fun u => rfl
      · unfold dbUpdate
        intro u hu hflag
        rw [List.mem_map] at hu
        obtain ⟨v, hv, rfl⟩ := hu
        by_cases hc : v.id = token.userId
        · rw [if_pos hc] at hflag ⊢
          exact hvinv v hv hflag
        · rw [if_neg hc] at hflag ⊢
          exact hvinv v hv hflag

lemma usersWf_reachable (db : List User)
    (h : Relation.ReflTransGen Step [] db) : usersWf db := by
  induction h with
  | refl =>
    exact ⟨List.nodup_nil, List.nodup_nil, fun u hu => absurd hu (List.not_mem_nil u)⟩
  | tail hsteps hstep ih => exact usersWf_step _ _ hstep ih

lemma verified_persists_step (db db' : List User) (hstep : Step db db')
    (u : User) (hu : u ∈ db) (hver : u.isEmailVerified = true) :
    ∃ u', u' ∈ db' ∧ u'.id = u.id ∧ u'.isEmailVerified = true := by
  cases hstep with
  | opRegister r freshId hashed now q hfresh =>
    rcases register_snd_cases db r freshId hashed now q with heq | ⟨-, heq⟩
    · rw [heq]; exact ⟨u, hu, rfl, hver⟩
    · rw [heq]
      unfold setEmailVerificationCode dbUpdate
      refine ⟨_, List.mem_map_of_mem _ (List.mem_append_left _ hu), ?_⟩
      by_cases hc : u.id = freshId
      · rw [if_pos hc]
        exact ⟨rfl, hver⟩
      · rw [if_neg hc]
        exact ⟨rfl, hver⟩
  | opResend email now q =>
    rcases resend_snd_cases db email now q with heq | ⟨w, -, -, heq⟩
    · rw [heq]; exact ⟨u, hu, rfl, hver⟩
    · rw [heq]
      unfold setEmailVerificationCode dbUpdate
      refine ⟨_, List.mem_map_of_mem _ hu, ?_⟩
      by_cases hc : u.id = w.id
      · rw [if_pos hc]
        exact ⟨rfl, hver⟩
      · rw [if_neg hc]
        exact ⟨rfl, hver⟩
  | opVerifyEmail email code now =>
    rcases verifyEmail_cases db email code now with ⟨v, -, -, heq⟩ | ⟨-, heq⟩
    · have h2 : (verifyEmail db email code now).2 = dbUpdate db v.id (fun v =>
          { v with isEmailVerified := true, emailVerificationCode := none,
                   emailVerificationExpiresAt := none, updatedAt := now }) := by
        rw [heq]
      rw [h2]
      unfold dbUpdate
      refine ⟨_, List.mem_map_of_mem _ hu, ?_⟩
      by_cases hc : u.id = v.id
      · rw [if_pos hc]
        exact ⟨rfl, rfl⟩
      · rw [if_neg hc]
        exact ⟨rfl, hver⟩
    · have h2 : (verifyEmail db email code now).2 = db := by
        rw [heq]
      rw [h2]
      exact ⟨u, hu, rfl, hver⟩
  | opRequestReset email now q =>
    rcases requestReset_snd_cases db email now q with heq | heq
    · rw [heq]; exact ⟨u, hu, rfl, hver⟩
    · rw [heq]
      unfold setPasswordResetCode
      refine ⟨_, List.mem_map_of_mem _ hu, ?_⟩
      by_cases hc : u.email = email
      · rw [if_pos hc]
        exact ⟨rfl, hver⟩
      · rw [if_neg hc]
        exact ⟨rfl, hver⟩
  | opVerifyResetCode email code now secret =>
    rw [verifyResetCode_db_eq]
    exact ⟨u, hu, rfl, hver⟩
  | opConfirmReset token pw now secret hash =>
    rcases confirmReset_snd_cases db token pw now secret hash with heq | heq
    · rw [heq]; exact ⟨u, hu, rfl, hver⟩
    · rw [heq]
      unfold dbUpdate
      refine ⟨_, List.mem_map_of_mem _ hu, ?_⟩
      by_cases hc : u.id = token.userId
      · rw [if_pos hc]
        exact ⟨rfl, hver⟩
      · rw [if_neg hc]
        exact ⟨rfl, hver⟩

/-- C10: in any reachable state, a verified account never leaves the verified
state: `verifyEmail` for it returns the generic invalid-or-expired failure
with the table unchanged (its stored code was cleared at verification),
`resendVerificationEmail` refuses with "Email is already verified" and changes
nothing, and every further operation keeps the account verified. -/
theorem verified_is_terminal (db : List User)
    (hreach : Relation.ReflTransGen Step [] db) :
    ∀ u ∈ db, u.isEmailVerified = true →
      (∀ code now, verifyEmail db u.email code now =
        (⟨false, "Invalid or expired verification code"⟩, db)) ∧
      (∀ now q, resendVerificationEmail db u.email now q =
        (⟨false, "Email is already verified"⟩, db)) ∧
      (∀ db', Step db db' →
        ∃ u', u' ∈ db' ∧ u'.id = u.id ∧ u'.isEmailVerified = true) := by
  obtain ⟨hids, hemails, hvinv⟩ := usersWf_reachable db hreach
  intro u hu hver
  have hfind : findByEmail db u.email = some u := find?_email_self db u hemails hu
  have hcode : u.emailVerificationCode = none := hvinv u hu hver
  refine ⟨?_, ?_, fun db' hstep => verified_persists_step db db' hstep u hu hver⟩
  · intro code now
    have hwc : verifyEmailWithCode db u.email code now = (none, db) := by
      unfold verifyEmailWithCode
      simp only [hfind, hcode]
    simp only [verifyEmail, hwc]
  · intro now q
    simp only [resendVerificationEmail, hfind]
    rw [if_pos hver]

/-- A concrete signup request used to instantiate C10. -/
def rC10 : SignupDto :=
  { businessName := "Biz", email := "t@x.com", password := "Passw0rd",
    contactNumber := "0123456789", address := "Ten Chars Addr" }

/-- The row produced by registering `rC10` at time 0 with randomness 0. -/
def uC10a : User :=
  { id := "t1", businessName := "Biz", email := "t@x.com",
    password := some "h", contactNumber := some "0123456789",
    address := some "Ten Chars Addr", role := "business",
    emailVerificationCode := some "100000",
    emailVerificationExpiresAt := some 600000, passwordResetCode := none,
    passwordResetExpiresAt := none, isEmailVerified := false,
    isActive := true, lastLoginAt := none, updatedAt := 0 }

/-- `uC10a` after a successful email verification at time 0. -/
def uC10b : User :=
  { id := "t1", businessName := "Biz", email := "t@x.com",
    password := some "h", contactNumber := some "0123456789",
    address := some "Ten Chars Addr", role := "business",
    emailVerificationCode := none, emailVerificationExpiresAt := none,
    passwordResetCode := none, passwordResetExpiresAt := none,
    isEmailVerified := true, isActive := true, lastLoginAt := none,
    updatedAt := 0 }

lemma registerC10_eq : (register [] rC10 "t1" "h" 0 0).2 = [uC10a] := by
  have h1 : findByEmail [] rC10.email = none := rfl
  simp only [register, h1]
  rw [genCodeStr_zero]
  decide

lemma verifyC10_eq : (verifyEmail [uC10a] "t@x.com" "100000" 0).2 = [uC10b] := by
  decide

lemma reachC10 : Relation.ReflTransGen Step [] [uC10b] := by
  have s1 : Step [] ((register [] rC10 "t1" "h" 0 0).2) :=
    Step.opRegister [] rC10 "t1" "h" 0 0 (by simp)
  rw [registerC10_eq] at s1
  have s2 : Step [uC10a] ((verifyEmail [uC10a] "t@x.com" "100000" 0).2) :=
    Step.opVerifyEmail [uC10a] "t@x.com" "100000" 0
  rw [verifyC10_eq] at s2
  exact (Relation.ReflTransGen.single s1).tail s2

/-- Concrete instantiation of C10 on a reachable state where the account has
been verified: a resubmitted code fails generically and resend refuses. -/
theorem verified_is_terminal_witness :
    uC10b.isEmailVerified = true ∧
    verifyEmail [uC10b] "t@x.com" "100000" 5 =
      (⟨false, "Invalid or expired verification code"⟩, [uC10b]) ∧
    resendVerificationEmail [uC10b] "t@x.com" 5 0 =
      (⟨false, "Email is already verified"⟩, [uC10b]) := by
  have h := verified_is_terminal [uC10b] reachC10 uC10b
    (List.mem_singleton.mpr rfl) rfl
  exact ⟨rfl, h.1 "100000" 5, h.2.1 5 0⟩
